import Mathlib

/-!
Shallow embedding of the LZMA decoder and the encoder dictionaries of the
`lzma` package (files `decoder.go` and `encoderdict.go`), together with
theorems settling the frozen claims about them.

The range decoder, the literal/length/distance codecs, the decoder
dictionary and the ring buffer backing the new encoder dictionary are not
part of the given sources; where a claim needs them they are modelled from
the specification (each such definition carries a doc comment starting
with `Modelled from the spec:`).  The bit and symbol values those codecs
would produce are supplied by an oracle (`Chooser` / `CodecStep`), so that
`decodeOp` and `fill` below mirror exactly the control flow of
`decoder.go` while staying executable.
-/

namespace XZ

/-! ## State machine (decoder.go, lines 199-237) -/

/-- `updateStateLiteral` from decoder.go: state update after a literal. -/
def updateStateLiteral (state : Nat) : Nat :=
  if state < 4 then 0
  else if state < 10 then state - 3
  else state - 6

/-- `updateStateMatch` from decoder.go: state update after a simple match. -/
def updateStateMatch (state : Nat) : Nat :=
  if state < 7 then 7 else 10

/-- `updateStateRep` from decoder.go: state update after a repetition. -/
def updateStateRep (state : Nat) : Nat :=
  if state < 7 then 8 else 11

/-- `updateStateShortRep` from decoder.go: state update after a short rep. -/
def updateStateShortRep (state : Nat) : Nat :=
  if state < 7 then 9 else 11

/-! ## Decoder dictionary

decoderdict.go is not among the sources; the dictionary is modelled from
the specification (section 4.G).  Circular storage is abstracted: `data`
is the whole output history, of which only the last `histLen` bytes are
addressable. -/

/-- Modelled from the spec: the decoder dictionary (decoderdict.go is not
in the sources).  `data` holds every byte written so far, `readTotal`
counts the bytes already delivered to the consumer, `histLen` is the
history (DictLen) capacity, `b` is the fill threshold used by
`Decoder.fill`, and `eof` is the sticky end-of-stream flag. -/
structure DecoderDict where
  data : List Nat
  readTotal : Nat
  histLen : Nat
  b : Nat
  eof : Bool
deriving DecidableEq

/-- total bytes ever written to the dictionary (`d.dict.total`). -/
def DecoderDict.total (dict : DecoderDict) : Nat := dict.data.length

/-- Modelled from the spec: number of completed bytes not yet delivered
to the consumer (`d.dict.readable()`). -/
def DecoderDict.readable (dict : DecoderDict) : Nat :=
  dict.total - dict.readTotal

/-- Modelled from the spec: `byte_at(distance)` returns the byte
`distance` behind the head and 0 before the stream start
(`d.dict.getByte`). -/
def DecoderDict.getByte (dict : DecoderDict) (dist : Nat) : Nat :=
  if 0 < dist ∧ dist ≤ dict.data.length then
    dict.data.getD (dict.data.length - dist) 0
  else 0

/-- append a single byte at the dictionary head. -/
def DecoderDict.appendByte (dict : DecoderDict) (byte : Nat) : DecoderDict :=
  { dict with data := dict.data ++ [byte] }

/-- Modelled from the spec: `copy_match` appends `byte_at(dist)` once per
iteration, reading newly written bytes as the loop progresses. -/
def DecoderDict.copyMatch : Nat → Nat → DecoderDict → DecoderDict
  | 0, _, dict => dict
  | n + 1, dist, dict =>
      DecoderDict.copyMatch n dist (dict.appendByte (dict.getByte dist))

/-! ## Operations -/

/-- minimum match length of the LZMA format (spec: `min_length = 2`). -/
def minLength : Nat := 2

/-- minimum match distance of the LZMA format (spec: `min_distance = 1`). -/
def minDistance : Nat := 1

/-- Modelled from the spec: the operations produced by `decodeOp`.  In
decoder.go these are the `lit` and `rep` implementations of the
`operation` interface. -/
inductive Operation where
  | lit (byte : Nat)
  | rep (length : Nat) (distance : Nat)
deriving DecidableEq

/-- Modelled from the spec: `op.Len()` — a literal contributes one byte,
a match its length. -/
def Operation.Len : Operation → Nat
  | .lit _ => 1
  | .rep length _ => length

/-- Modelled from the spec: `op.applyDecoderDict` writes the operation
into the dictionary; a match distance of 0 or one exceeding
`min(total, histLen)` is an invalid-distance error (`none`). -/
def Operation.applyDecoderDict : Operation → DecoderDict → Option DecoderDict
  | .lit byte, dict => some (dict.appendByte byte)
  | .rep length distance, dict =>
      if distance = 0 ∨ min dict.total dict.histLen < distance then none
      else some (DecoderDict.copyMatch length distance dict)

/-! ## Errors and the codec oracle -/

/-- the errors visible in decoder.go, plus the one-level wrapping
`fmt.Errorf("LZMA - %s", err)` performed by `Decoder.Read`. -/
inductive Err where
  | ioEOF
  | readFailure
  | wrongTermination
  | eofDecoded
  | unexpectedEOS
  | unexpectedEndOfCompressedStream
  | decodedStreamTooLong
  | invalidDistance
  | lzma (e : Err)
deriving DecidableEq

/-- whether an error carries the `"LZMA - "` wrapping of `Decoder.Read`. -/
def Err.isWrapped : Err → Bool
  | .lzma _ => true
  | _ => false

/-- a failure of the underlying range decoder: either end of the
compressed input (`io.EOF`) or another read error. -/
inductive RdErr where
  | ioEOF
  | readFailure
deriving DecidableEq

/-- one call of `decodeOp` worth of oracle values: the bits decoded from
the adaptive probabilities and the symbols returned by the literal,
length and distance codecs.  The codecs themselves are not among the
sources; their outputs are inputs of the model. -/
structure Chooser where
  bitIsMatch : Nat
  litByte : Nat
  bitIsRep : Nat
  lenRes : Nat
  distRes : Nat
  bitIsRepG0 : Nat
  bitIsRepG0Long : Nat
  bitIsRepG1 : Nat
  bitIsRepG2 : Nat
  repLenRes : Nat
deriving DecidableEq

/-- the behaviour of the range decoder during one `decodeOp` call: either
it fails, or it yields the values of a `Chooser`. -/
inductive CodecStep where
  | rdFail (e : RdErr)
  | vals (c : Chooser)
deriving DecidableEq

/-! ## Decoder state -/

/-- sentinel unpack length requiring an explicit EOS marker
(decoder.go, `noUnpackLen`). -/
def noUnpackLen : Nat := 2 ^ 64 - 1

/-- the fields of `Decoder` (decoder.go) the claims are about.  `code` is
the range decoder's `code` register (rangedecoder.go is not in the
sources; only its `possiblyAtEnd` predicate is needed, see below). -/
structure Decoder where
  lc : Nat
  lp : Nat
  unpackLen : Nat
  decodedLen : Nat
  dict : DecoderDict
  state : Nat
  rep0 : Nat
  rep1 : Nat
  rep2 : Nat
  rep3 : Nat
  code : Nat
deriving DecidableEq

/-- Modelled from the spec: `rangeDecoder.possiblyAtEnd` holds exactly
when the `code` register is 0 (rangedecoder.go is not in the sources). -/
def possiblyAtEnd (code : Nat) : Bool := code == 0

/-- set the sticky eof flag on the decoder's dictionary. -/
def setDictEof (d : Decoder) : Decoder :=
  { d with dict := { d.dict with eof := true } }

/-! ## decodeOp (decoder.go, lines 272-369) -/

/-- result of one `decodeOp` call: the operation plus the mutated decoder,
or an error plus the decoder as mutated so far. -/
inductive DecodeOpResult where
  | ok (op : Operation) (d : Decoder)
  | err (e : Err) (d : Decoder)
deriving DecidableEq

/-- the decoder carried by a `DecodeOpResult`. -/
def DecodeOpResult.decoder : DecodeOpResult → Decoder
  | .ok _ d => d
  | .err _ d => d

/-- `Decoder.decodeOp` from decoder.go, with the codec outputs supplied
by the oracle `step`.  The branch structure, the order of the rep-history
updates and the EOS handling mirror the source exactly. -/
def decodeOp : Decoder → CodecStep → DecodeOpResult
  | d, .rdFail .ioEOF => .err .ioEOF d
  | d, .rdFail .readFailure => .err .readFailure d
  | d, .vals c =>
    if c.bitIsMatch = 0 then
      -- literal
      let d1 := { d with state := updateStateLiteral d.state }
      .ok (Operation.lit c.litByte) d1
    else if c.bitIsRep = 0 then
      -- simple match: shift the rep history, then decode length/distance
      let d1 := { d with rep3 := d.rep2, rep2 := d.rep1, rep1 := d.rep0,
                         state := updateStateMatch d.state }
      let d2 := { d1 with rep0 := c.distRes }
      if d2.rep0 = 0xffffffff then
        if ¬ possiblyAtEnd d2.code then .err .wrongTermination d2
        else .err .eofDecoded d2
      else
        .ok (Operation.rep (c.lenRes + minLength) (d2.rep0 + minDistance)) d2
    else if c.bitIsRepG0 = 0 then
      if c.bitIsRepG0Long = 0 then
        -- short rep
        let d1 := { d with state := updateStateShortRep d.state }
        .ok (Operation.rep 1 (d1.rep0 + minDistance)) d1
      else
        -- rep0 with length: the rep history is unchanged
        let d1 := { d with state := updateStateRep d.state }
        .ok (Operation.rep (c.repLenRes + minLength) (d.rep0 + minDistance)) d1
    else
      -- rep1 / rep2 / rep3
      let dist := if c.bitIsRepG1 = 0 then d.rep1
                  else if c.bitIsRepG2 = 0 then d.rep2 else d.rep3
      let d1 := if c.bitIsRepG1 = 0 then d
                else if c.bitIsRepG2 = 0 then { d with rep2 := d.rep1 }
                else { d with rep3 := d.rep2, rep2 := d.rep1 }
      let d2 := { d1 with rep1 := d.rep0, rep0 := dist }
      let d3 := { d2 with state := updateStateRep d2.state }
      .ok (Operation.rep (c.repLenRes + minLength) (dist + minDistance)) d3

/-! ## fill (decoder.go, lines 155-197) -/

/-- result of `Decoder.fill`: success or an error, in both cases with the
decoder as mutated; `panicked` is the overflow panic of line 180, and
`noScript` marks exhaustion of the oracle while the loop still wants
more data (underdetermined in the model). -/
inductive FillResult where
  | ok (d : Decoder)
  | err (e : Err) (d : Decoder)
  | panicked (d : Decoder)
  | noScript (d : Decoder)
deriving DecidableEq

/-- the decoder carried by a `FillResult`. -/
def FillResult.decoder : FillResult → Decoder
  | .ok d => d
  | .err _ d => d
  | .panicked d => d
  | .noScript d => d

/-- the loop of `Decoder.fill`: decode operations until the dictionary
holds at least `b` readable bytes.  One oracle entry is consumed per
`decodeOp` call.  The error dispatch, the length bookkeeping and the eof
handling follow decoder.go lines 159-195. -/
def fillLoop : Decoder → List CodecStep → FillResult
  | d, [] =>
      if d.dict.b ≤ d.dict.readable then .ok d else .noScript d
  | d, step :: rest =>
      if d.dict.b ≤ d.dict.readable then .ok d
      else
        match decodeOp d step with
        | .err .eofDecoded d1 =>
            if d1.unpackLen ≠ noUnpackLen ∧ d1.decodedLen ≠ d1.unpackLen then
              .err .unexpectedEOS d1
            else .ok (setDictEof d1)
        | .err .ioEOF d1 => .err .unexpectedEndOfCompressedStream d1
        | .err e d1 => .err e d1
        | .ok op d1 =>
            let n := d1.decodedLen + op.Len
            if 2 ^ 64 ≤ n then .panicked d1
            else if d1.unpackLen < n then
              .err .decodedStreamTooLong (setDictEof d1)
            else
              match op.applyDecoderDict d1.dict with
              | none => .err .invalidDistance { d1 with decodedLen := n }
              | some dict1 =>
                  if n = d1.unpackLen then
                    .ok (setDictEof { d1 with decodedLen := n, dict := dict1 })
                  else fillLoop { d1 with decodedLen := n, dict := dict1 } rest

/-- `Decoder.fill` from decoder.go: a no-op once the dictionary eof flag
is set, otherwise the decode loop above. -/
def fill (d : Decoder) (script : List CodecStep) : FillResult :=
  if d.dict.eof then .ok d else fillLoop d script

/-! ## Decoder.Read (decoder.go, lines 128-148) -/

/-- result of one `d.dict.Read(p[n:])` call. -/
structure DictReadResult where
  k : Nat
  e : Option Err
  dict : DecoderDict
deriving DecidableEq

/-- Modelled from the spec: `decoderDict.Read` delivers as many completed
bytes as fit and reports `io.EOF` once the sticky eof flag is set and all
bytes have been delivered (decoderdict.go is not in the sources). -/
def DecoderDict.dictRead (dict : DecoderDict) (want : Nat) : DictReadResult :=
  let k := min want dict.readable
  if k = 0 ∧ dict.eof then ⟨0, some Err.ioEOF, dict⟩
  else ⟨k, none, { dict with readTotal := dict.readTotal + k }⟩

/-- result of one `Decoder.Read` call: byte count, error, and the decoder
afterwards. -/
structure ReadResult where
  cnt : Nat
  e : Option Err
  dec : Decoder
deriving DecidableEq

/-- `Decoder.Read` from decoder.go: repeatedly drain the dictionary into
the caller's buffer of length `pLen` (`n` bytes already copied), calling
`fill` between rounds.  One script of codec oracle values is consumed per
`fill` call; `none` means the oracle ran out (underdetermined).  `io.EOF`
from the dictionary ends the stream; every other error is returned
wrapped with the `"LZMA - "` prefix of `fmt.Errorf`. -/
def lzmaRead : Decoder → Nat → Nat → List (List CodecStep) → Option ReadResult
  | d, pLen, n, scripts =>
    let r := d.dict.dictRead (pLen - n)
    let d1 := { d with dict := r.dict }
    let n1 := n + r.k
    match r.e with
    | some Err.ioEOF =>
        if n1 = 0 then some ⟨0, some Err.ioEOF, d1⟩ else some ⟨n1, none, d1⟩
    | some e => some ⟨n1, some (Err.lzma e), d1⟩
    | none =>
      if n1 = pLen then some ⟨n1, none, d1⟩
      else
        match scripts with
        | [] => none
        | s :: rest =>
          match fill d1 s with
          | .ok d2 => lzmaRead d2 pLen n1 rest
          | .err e d2 => some ⟨n1, some (Err.lzma e), d2⟩
          | .panicked _ => none
          | .noScript _ => none

/-! ## decodeLiteral (decoder.go, lines 242-258)

Only the two arguments `decodeLiteral` computes for the literal codec are
claim-relevant: the context `litState` and the match byte. -/

/-- the `litState` computation of `Decoder.decodeLiteral` (decoder.go
lines 243-246): `uint32(d.dict.total)` truncates the total to 32 bits
before masking. -/
def decodeLiteralLitState (d : Decoder) : Nat :=
  (((d.dict.total % 2 ^ 32) &&& ((1 <<< d.lp) - 1)) <<< d.lc) |||
    ((d.dict.getByte 1) >>> (8 - d.lc))

/-- the match byte passed to the literal codec by `Decoder.decodeLiteral`
(decoder.go line 252). -/
def decodeLiteralMatchByte (d : Decoder) : Nat :=
  d.dict.getByte (d.rep0 + 1)

/-- the literal context exactly as the spec words it:
`lit_state = ((total & ((1<<LP) − 1)) << LC) | (prev_byte >> (8 − LC))`. -/
def specLitState (lp lc total prevByte : Nat) : Nat :=
  ((total &&& ((1 <<< lp) - 1)) <<< lc) ||| (prevByte >>> (8 - lc))

/-! ## Encoder dictionaries (encoderdict.go) -/

/-- Modelled from the spec: the `encoderBuffer` backing the old
`encoderDict` (encoderbuffer.go is not in the sources).  `written` is
every byte written so far, indexed by absolute position; `wordLen` is the
matcher word length; `matcherPositions` is the oracle for the absolute
positions that `buf.matcher.Matches` returns. -/
structure encoderBuffer where
  written : List Nat
  wordLen : Nat
  matcherPositions : List Int
deriving DecidableEq

/-- absolute write position of the encoder buffer (`buf.Pos()`). -/
def encoderBuffer.Pos (buf : encoderBuffer) : Int := buf.written.length

/-- Modelled from the spec: read one byte at an absolute position
(`buf.ReadByteAt`); fails outside the written range. -/
def encoderBuffer.ReadByteAt (buf : encoderBuffer) (pos : Int) : Option Nat :=
  if 0 ≤ pos ∧ pos < (buf.written.length : Int) then
    some (buf.written.getD pos.toNat 0)
  else none

/-- the old `encoderDict` of encoderdict.go (lines 9-19): `head` is the
offset of the dictionary head from the zero position, `zero` the absolute
position of the dictionary start, `capacity` the dictionary capacity. -/
structure encoderDict where
  buf : encoderBuffer
  head : Int
  zero : Int
  capacity : Int
deriving DecidableEq

/-- `encoderDict.Pos` (encoderdict.go lines 56-58). -/
def encoderDict.Pos (e : encoderDict) : Int := e.zero + e.head

/-- `encoderDict.Len` (encoderdict.go lines 61-66). -/
def encoderDict.Len (e : encoderDict) : Int :=
  if e.capacity ≤ e.head then e.capacity else e.head

/-- `encoderDict.Buffered` (encoderdict.go lines 70-72). -/
def encoderDict.Buffered (e : encoderDict) : Int := e.buf.Pos - e.Pos

/-- `encoderDict.ByteAt` (encoderdict.go lines 84-93): guard
`0 < distance && distance <= e.Len()`, then a byte read at
`e.Pos() - distance` (which panics on failure; the model returns 0 in
the unreachable failure case). -/
def encoderDict.ByteAt (e : encoderDict) (distance : Int) : Nat :=
  if 0 < distance ∧ distance ≤ e.Len then
    match e.buf.ReadByteAt (e.Pos - distance) with
    | some c => c
    | none => 0
  else 0

/-- `encoderDict.Matches` (encoderdict.go lines 107-125): nil when fewer
than `WordLen()` bytes are buffered or when the word read fails,
otherwise the matcher positions converted to distances and filtered to
`0 < d ≤ Len()`. -/
def encoderDict.Matches (e : encoderDict) : List Int :=
  if e.Buffered < (e.buf.wordLen : Int) then []
  else if e.Pos + (e.buf.wordLen : Int) ≤ e.buf.Pos then
    e.buf.matcherPositions.filterMap fun pos =>
      let dist := e.Pos - pos
      if 0 < dist ∧ dist ≤ e.Len then some dist else none
  else []

/-- Modelled from the spec: the ring buffer of the new `EncoderDict`
(buffer.go is not in the sources).  `data` is the fixed circular storage,
`rear` the read index, `front` the write index; one slot stays free. -/
structure buffer where
  data : List Nat
  rear : Nat
  front : Nat
deriving DecidableEq

/-- Modelled from the spec: bytes currently buffered between `rear` and
`front`. -/
def buffer.Buffered (b : buffer) : Nat :=
  if b.rear ≤ b.front then b.front - b.rear
  else b.front + b.data.length - b.rear

/-- Modelled from the spec: free space of the ring buffer (capacity is
`len(data) - 1`, one slot stays free). -/
def buffer.Available (b : buffer) : Nat :=
  b.data.length - 1 - b.Buffered

/-- the new `EncoderDict` of encoderdict.go (lines 177-181): the ring
buffer, the matcher state (`mPos` for `m.Pos()`, `mWordLen` for
`m.WordLen()`, `mPositions` as the oracle for `m.Matches`) and the
dictionary capacity. -/
structure EncoderDict where
  buf : buffer
  mPos : Nat
  mWordLen : Nat
  mPositions : List Int
  capacity : Nat
deriving DecidableEq

/-- `EncoderDict.Len` (encoderdict.go lines 224-231). -/
def EncoderDict.Len (ed : EncoderDict) : Nat :=
  if (ed.buf.Available : Int) < (ed.mPos : Int) then ed.buf.Available
  else ed.mPos

/-- `EncoderDict.DictLen` (encoderdict.go lines 245-251). -/
def EncoderDict.DictLen (ed : EncoderDict) : Nat :=
  if (ed.capacity : Int) < (ed.mPos : Int) then ed.capacity else ed.mPos

/-- `EncoderDict.ByteAt` (encoderdict.go lines 261-270): note the strict
guard `0 < distance && distance < ed.Len()`. -/
def EncoderDict.ByteAt (ed : EncoderDict) (distance : Int) : Nat :=
  if 0 < distance ∧ distance < (ed.Len : Int) then
    let i : Int := (ed.buf.rear : Int) - distance
    let i1 := if i < 0 then i + ed.buf.data.length else i
    ed.buf.data.getD i1.toNat 0
  else 0

/-- `EncoderDict.Matches` (encoderdict.go lines 345-364): nil when fewer
than `m.WordLen()` bytes are buffered, otherwise the matcher positions
converted to distances `m.Pos() - pos` and filtered to
`0 < d ≤ DictLen()`. -/
def EncoderDict.Matches (ed : EncoderDict) : List Int :=
  if ed.buf.Buffered < ed.mWordLen then []
  else
    ed.mPositions.filterMap fun pos =>
      let dist := (ed.mPos : Int) - pos
      if 0 < dist ∧ dist ≤ (ed.DictLen : Int) then some dist else none

/-! ## Concrete instances used by counterexamples and witnesses -/

/-- a concrete decoder state used to refute claim C3 as stated. -/
def dec3 : Decoder :=
  { lc := 0, lp := 0, unpackLen := noUnpackLen, decodedLen := 0,
    dict := ⟨[], 0, 4096, 1, false⟩, state := 0,
    rep0 := 10, rep1 := 20, rep2 := 30, rep3 := 40, code := 5 }

/-- oracle values steering `decodeOp` into the rep1 branch. -/
def chooseRep1 : Chooser :=
  { bitIsMatch := 1, litByte := 0, bitIsRep := 1, lenRes := 0, distRes := 0,
    bitIsRepG0 := 1, bitIsRepG0Long := 0, bitIsRepG1 := 0, bitIsRepG2 := 0,
    repLenRes := 0 }

/-- a concrete decoder state for the witness of `repHistoryUpdates`. -/
def dec3w : Decoder :=
  { lc := 0, lp := 0, unpackLen := noUnpackLen, decodedLen := 0,
    dict := ⟨[], 0, 4096, 1, false⟩, state := 0,
    rep0 := 10, rep1 := 20, rep2 := 30, rep3 := 40, code := 5 }

/-- oracle values steering `decodeOp` into the rep3 branch. -/
def chooseRep3 : Chooser :=
  { bitIsMatch := 1, litByte := 0, bitIsRep := 1, lenRes := 0, distRes := 0,
    bitIsRepG0 := 1, bitIsRepG0Long := 0, bitIsRepG1 := 1, bitIsRepG2 := 1,
    repLenRes := 3 }

/-- a concrete decoder state for the witness of `eosMarkerHandling`. -/
def dec1w : Decoder :=
  { lc := 0, lp := 0, unpackLen := 5, decodedLen := 3,
    dict := ⟨[1, 2, 3], 3, 4096, 1, false⟩, state := 0,
    rep0 := 0, rep1 := 0, rep2 := 0, rep3 := 0, code := 0 }

/-- oracle values producing the EOS marker in a simple match. -/
def chooseEos : Chooser :=
  { bitIsMatch := 1, litByte := 0, bitIsRep := 0, lenRes := 0,
    distRes := 0xffffffff, bitIsRepG0 := 0, bitIsRepG0Long := 0,
    bitIsRepG1 := 0, bitIsRepG2 := 0, repLenRes := 0 }

/-- a concrete decoder state for the witness of
`decodedLenMonotoneBounded`. -/
def dec4w : Decoder :=
  { lc := 0, lp := 0, unpackLen := 2, decodedLen := 0,
    dict := ⟨[], 0, 10, 1, false⟩, state := 0,
    rep0 := 0, rep1 := 0, rep2 := 0, rep3 := 0, code := 7 }

/-- oracle values producing one literal byte 65. -/
def chooseLit : Chooser :=
  { bitIsMatch := 0, litByte := 65, bitIsRep := 0, lenRes := 0, distRes := 0,
    bitIsRepG0 := 0, bitIsRepG0Long := 0, bitIsRepG1 := 0, bitIsRepG2 := 0,
    repLenRes := 0 }

/-- a concrete decoder state for the witness of `rejectedOpLeavesDict`:
the unpack length 0 makes every op overflow. -/
def dec10w : Decoder :=
  { lc := 0, lp := 0, unpackLen := 0, decodedLen := 0,
    dict := ⟨[9], 0, 10, 2, false⟩, state := 3,
    rep0 := 0, rep1 := 0, rep2 := 0, rep3 := 0, code := 7 }

/-- a concrete decoder state for the witness of `literalContext`. -/
def dec6w : Decoder :=
  { lc := 3, lp := 1, unpackLen := noUnpackLen, decodedLen := 2,
    dict := ⟨[170, 204], 0, 4096, 1, false⟩, state := 7,
    rep0 := 1, rep1 := 0, rep2 := 0, rep3 := 0, code := 7 }

/-- old-style encoder dictionary holding exactly one byte, 7. -/
def ed5low : encoderDict :=
  { buf := { written := [7], wordLen := 4, matcherPositions := [] },
    head := 1, zero := 0, capacity := 8 }

/-- new-style encoder dictionary holding exactly one byte, 7 (it sits at
index 0, just behind the read index `rear = 1`). -/
def ed5cap : EncoderDict :=
  { buf := { data := [7, 0, 0, 0], rear := 1, front := 1 },
    mPos := 1, mWordLen := 4, mPositions := [], capacity := 8 }

/-- old-style encoder dictionary for the witness of `matchesFiltered`:
five bytes buffered ahead of the head, one matcher position. -/
def ed9w : encoderDict :=
  { buf := { written := [1, 2, 3, 1, 2, 3, 4, 5], wordLen := 4,
             matcherPositions := [1] },
    head := 3, zero := 0, capacity := 8 }

/-- new-style encoder dictionary for the witness of `matchesFiltered`:
only two bytes buffered, fewer than the word length 4. -/
def ed9small : EncoderDict :=
  { buf := { data := [1, 2, 0, 0, 0], rear := 0, front := 2 },
    mPos := 0, mWordLen := 4, mPositions := [7], capacity := 8 }

/-- a concrete decoder at the stream end for the witness of
`readErrorDiscipline`. -/
def dec7w : Decoder :=
  { lc := 0, lp := 0, unpackLen := 0, decodedLen := 0,
    dict := ⟨[], 0, 10, 1, true⟩, state := 0,
    rep0 := 0, rep1 := 0, rep2 := 0, rep3 := 0, code := 0 }

/-- a decoder whose declared unpack length 0 makes the first decoded op
overlong. -/
def dec8 : Decoder :=
  { lc := 0, lp := 0, unpackLen := 0, decodedLen := 0,
    dict := ⟨[], 0, 10, 1, false⟩, state := 0,
    rep0 := 0, rep1 := 0, rep2 := 0, rep3 := 0, code := 7 }

/-! ## Shared helper lemmas -/

/-- `decodeOp` never touches the dictionary, the decoded length, the
unpack length or the range decoder code register. -/
theorem decodeOp_preserves (d : Decoder) (step : CodecStep) :
    (decodeOp d step).decoder.dict = d.dict ∧
    (decodeOp d step).decoder.decodedLen = d.decodedLen ∧
    (decodeOp d step).decoder.unpackLen = d.unpackLen ∧
    (decodeOp d step).decoder.code = d.code := by
  cases step with
  | rdFail e => cases e <;> exact ⟨rfl, rfl, rfl, rfl⟩
  | vals c =>
      simp only [decodeOp]
      repeat' split
      all_goals exact ⟨rfl, rfl, rfl, rfl⟩

/-- the only errors `decodeOp` itself can return. -/
theorem decodeOp_err_cases (d : Decoder) (step : CodecStep) (e : Err)
    (d1 : Decoder) (h : decodeOp d step = .err e d1) :
    e = .ioEOF ∨ e = .readFailure ∨ e = .wrongTermination ∨ e = .eofDecoded := by
  cases step with
  | rdFail e0 => cases e0 <;> simp_all [decodeOp]
  | vals c =>
      simp only [decodeOp] at h
      repeat' split at h
      all_goals simp_all

/-! ## C2: the state transition tables -/

/-- **C2** — for every state in [0, 11]: a literal maps 0-3 to 0, 4-9 to
state−3, 10-11 to state−6; a simple match maps states below 7 to 7 and
the rest to 10; a rep maps states below 7 to 8 and the rest to 11; a
short rep maps states below 7 to 9 and the rest to 11; and each of the
four transition functions maps [0, 11] into [0, 11].  Each function takes
only the state, so the transition depends only on the op kind. -/
theorem stateTransitionTables (s : Nat) (h : s ≤ 11) :
    (s < 4 → updateStateLiteral s = 0) ∧
    (4 ≤ s → s ≤ 9 → updateStateLiteral s = s - 3) ∧
    (10 ≤ s → updateStateLiteral s = s - 6) ∧
    (s < 7 → updateStateMatch s = 7) ∧
    (7 ≤ s → updateStateMatch s = 10) ∧
    (s < 7 → updateStateRep s = 8) ∧
    (7 ≤ s → updateStateRep s = 11) ∧
    (s < 7 → updateStateShortRep s = 9) ∧
    (7 ≤ s → updateStateShortRep s = 11) ∧
    updateStateLiteral s ≤ 11 ∧ updateStateMatch s ≤ 11 ∧
    updateStateRep s ≤ 11 ∧ updateStateShortRep s ≤ 11 := by
  interval_cases s <;> decide

/-- witness for `stateTransitionTables` at state 8. -/
theorem stateTransitionTables_witness :
    (8 : Nat) ≤ 11 ∧
    (((8 : Nat) < 4 → updateStateLiteral 8 = 0) ∧
     ((4 : Nat) ≤ 8 → (8 : Nat) ≤ 9 → updateStateLiteral 8 = 8 - 3) ∧
     ((10 : Nat) ≤ 8 → updateStateLiteral 8 = 8 - 6) ∧
     ((8 : Nat) < 7 → updateStateMatch 8 = 7) ∧
     ((7 : Nat) ≤ 8 → updateStateMatch 8 = 10) ∧
     ((8 : Nat) < 7 → updateStateRep 8 = 8) ∧
     ((7 : Nat) ≤ 8 → updateStateRep 8 = 11) ∧
     ((8 : Nat) < 7 → updateStateShortRep 8 = 9) ∧
     ((7 : Nat) ≤ 8 → updateStateShortRep 8 = 11) ∧
     updateStateLiteral 8 ≤ 11 ∧ updateStateMatch 8 ≤ 11 ∧
     updateStateRep 8 ≤ 11 ∧ updateStateShortRep 8 ≤ 11) :=
  ⟨by decide, stateTransitionTables 8 (by decide)⟩

/-! ## C3: rep-history updates in decodeOp (corrected)

The claim states that in every one of the rep1/rep2/rep3 cases the shift
`rep[2] ← rep[1]` is performed.  In the source (decoder.go lines
339-361) that shift sits inside the `is_rep_g1 == 1` branch only, so in
the rep1 case `rep[2]` keeps its old value. -/

/-- counterexample to C3 as stated: with rep history (10, 20, 30, 40),
the rep1 branch of `decodeOp` leaves `rep[2] = 30`; the claimed shift
`rep[2] ← rep[1]` would have made it 20. -/
theorem repHistoryClaim_counterexample :
    decodeOp dec3 (CodecStep.vals chooseRep1) =
      .ok (Operation.rep 2 21)
        { dec3 with rep1 := 10, rep0 := 20, state := 8 } ∧
    ({ dec3 with rep1 := 10, rep0 := 20, state := 8 } : Decoder).rep2 = 30 ∧
    dec3.rep1 = 20 ∧ (30 : Nat) ≠ 20 := by decide

/-- **C3 (amended)** — rep-history updates of `decodeOp`: on a simple
match `rep[3..1] ← rep[2..0]` and `rep[0]` receives the decoded distance;
in the rep branch the candidate is `rep[1]`, `rep[2]` or `rep[3]` as the
is_rep_g1/is_rep_g2 bits select, the shift `rep[3] ← rep[2]` happens only
in the rep3 case, the shift `rep[2] ← rep[1]` only in the rep2 and rep3
cases, and in all three cases `rep[1] ← rep[0]` and `rep[0] ← candidate`;
on short rep and on rep0-long the history is unchanged. -/
theorem repHistoryUpdates (d : Decoder) (c : Chooser) :
    (c.bitIsMatch ≠ 0 → c.bitIsRep = 0 → c.distRes ≠ 0xffffffff →
      decodeOp d (.vals c) =
        .ok (Operation.rep (c.lenRes + minLength) (c.distRes + minDistance))
          { d with rep3 := d.rep2, rep2 := d.rep1, rep1 := d.rep0,
                   rep0 := c.distRes, state := updateStateMatch d.state }) ∧
    (c.bitIsMatch ≠ 0 → c.bitIsRep ≠ 0 → c.bitIsRepG0 = 0 →
      c.bitIsRepG0Long = 0 →
      decodeOp d (.vals c) =
        .ok (Operation.rep 1 (d.rep0 + minDistance))
          { d with state := updateStateShortRep d.state }) ∧
    (c.bitIsMatch ≠ 0 → c.bitIsRep ≠ 0 → c.bitIsRepG0 = 0 →
      c.bitIsRepG0Long ≠ 0 →
      decodeOp d (.vals c) =
        .ok (Operation.rep (c.repLenRes + minLength) (d.rep0 + minDistance))
          { d with state := updateStateRep d.state }) ∧
    (c.bitIsMatch ≠ 0 → c.bitIsRep ≠ 0 → c.bitIsRepG0 ≠ 0 →
      c.bitIsRepG1 = 0 →
      decodeOp d (.vals c) =
        .ok (Operation.rep (c.repLenRes + minLength) (d.rep1 + minDistance))
          { d with rep1 := d.rep0, rep0 := d.rep1,
                   state := updateStateRep d.state }) ∧
    (c.bitIsMatch ≠ 0 → c.bitIsRep ≠ 0 → c.bitIsRepG0 ≠ 0 →
      c.bitIsRepG1 ≠ 0 → c.bitIsRepG2 = 0 →
      decodeOp d (.vals c) =
        .ok (Operation.rep (c.repLenRes + minLength) (d.rep2 + minDistance))
          { d with rep2 := d.rep1, rep1 := d.rep0, rep0 := d.rep2,
                   state := updateStateRep d.state }) ∧
    (c.bitIsMatch ≠ 0 → c.bitIsRep ≠ 0 → c.bitIsRepG0 ≠ 0 →
      c.bitIsRepG1 ≠ 0 → c.bitIsRepG2 ≠ 0 →
      decodeOp d (.vals c) =
        .ok (Operation.rep (c.repLenRes + minLength) (d.rep3 + minDistance))
          { d with rep3 := d.rep2, rep2 := d.rep1, rep1 := d.rep0,
                   rep0 := d.rep3, state := updateStateRep d.state }) := by
  refine ⟨?_, ?_, ?_, ?_, ?_, ?_⟩ <;> intros <;>
    simp_all [decodeOp]

/-- witness for `repHistoryUpdates`: the rep3 branch at a concrete
decoder state. -/
theorem repHistoryUpdates_witness :
    decodeOp dec3w (CodecStep.vals chooseRep3) =
      .ok (Operation.rep 5 41)
        { dec3w with rep3 := 30, rep2 := 20, rep1 := 10, rep0 := 40,
                     state := 8 } :=
  (repHistoryUpdates dec3w chooseRep3).2.2.2.2.2
    (by decide) (by decide) (by decide) (by decide) (by decide)

/-! ## C1: the end-of-stream marker -/

/-- **C1** — when the distance codec yields 0xFFFFFFFF in a simple match:
with `code ≠ 0` the decoder fails with the wrong-termination error; with
`code = 0` and a finite unpack length not yet reached, `fill` fails with
the unexpected-EOS error; otherwise `fill` sets the sticky eof flag and
ends the stream normally. -/
theorem eosMarkerHandling (d : Decoder) (c : Chooser) (rest : List CodecStep)
    (heof : d.dict.eof = false) (hwant : d.dict.readable < d.dict.b)
    (hm : c.bitIsMatch ≠ 0) (hr : c.bitIsRep = 0)
    (hd : c.distRes = 0xffffffff) :
    (d.code ≠ 0 →
      fill d (CodecStep.vals c :: rest) =
        .err .wrongTermination
          { d with rep3 := d.rep2, rep2 := d.rep1, rep1 := d.rep0,
                   rep0 := c.distRes, state := updateStateMatch d.state }) ∧
    (d.code = 0 → d.unpackLen ≠ noUnpackLen → d.decodedLen ≠ d.unpackLen →
      fill d (CodecStep.vals c :: rest) =
        .err .unexpectedEOS
          { d with rep3 := d.rep2, rep2 := d.rep1, rep1 := d.rep0,
                   rep0 := c.distRes, state := updateStateMatch d.state }) ∧
    (d.code = 0 → (d.unpackLen = noUnpackLen ∨ d.decodedLen = d.unpackLen) →
      fill d (CodecStep.vals c :: rest) =
        .ok (setDictEof
          { d with rep3 := d.rep2, rep2 := d.rep1, rep1 := d.rep0,
                   rep0 := c.distRes, state := updateStateMatch d.state })) := by
  have hnb : ¬ d.dict.b ≤ d.dict.readable := Nat.not_le.mpr hwant
  refine ⟨?_, ?_, ?_⟩
  · intro hc
    simp_all [fill, fillLoop, decodeOp, possiblyAtEnd]
  · intro hc h1 h2
    simp_all [fill, fillLoop, decodeOp, possiblyAtEnd]
  · intro hc hor
    rcases hor with h | h <;> simp_all [fill, fillLoop, decodeOp, possiblyAtEnd]

/-- witness for `eosMarkerHandling`: an EOS marker arriving with three of
five declared bytes decoded fails with the unexpected-EOS error. -/
theorem eosMarkerHandling_witness :
    fill dec1w [CodecStep.vals chooseEos] =
      .err .unexpectedEOS
        { dec1w with rep3 := dec1w.rep2, rep2 := dec1w.rep1,
                     rep1 := dec1w.rep0, rep0 := chooseEos.distRes,
                     state := updateStateMatch dec1w.state } :=
  (eosMarkerHandling dec1w chooseEos [] (by decide) (by decide) (by decide)
      (by decide) (by decide)).2.1 (by decide) (by decide) (by decide)

/-! ## C4: the decoded length is monotone and bounded -/

/-- invariant of the `fill` loop: the decoded length never decreases, the
unpack length never changes, and a decoded length below the unpack length
stays below it. -/
theorem fillLoop_invariant (script : List CodecStep) (d : Decoder) :
    d.decodedLen ≤ (fillLoop d script).decoder.decodedLen ∧
    (fillLoop d script).decoder.unpackLen = d.unpackLen ∧
    (d.decodedLen ≤ d.unpackLen →
      (fillLoop d script).decoder.decodedLen ≤ d.unpackLen) := by
  induction script generalizing d with
  | nil =>
      simp only [fillLoop]
      split <;> exact ⟨le_refl _, rfl, fun h => h⟩
  | cons step rest ih =>
      simp only [fillLoop]
      split
      · exact ⟨le_refl _, rfl, fun h => h⟩
      · have hp := decodeOp_preserves d step
        split
        · -- decodeOp returned the explicit EOS marker
          rename_i d1 heq
          rw [heq] at hp
          obtain ⟨-, hlen, hul, -⟩ := hp
          dsimp only [DecodeOpResult.decoder] at hlen hul
          split <;> exact ⟨le_of_eq hlen.symm, hul, fun h => hlen ▸ h⟩
        · -- decodeOp hit the end of the compressed input
          rename_i d1 heq
          rw [heq] at hp
          obtain ⟨-, hlen, hul, -⟩ := hp
          dsimp only [DecodeOpResult.decoder] at hlen hul
          exact ⟨le_of_eq hlen.symm, hul, fun h => hlen ▸ h⟩
        · -- any other decodeOp error
          rename_i e d1 heq
          rw [heq] at hp
          obtain ⟨-, hlen, hul, -⟩ := hp
          dsimp only [DecodeOpResult.decoder] at hlen hul
          exact ⟨le_of_eq hlen.symm, hul, fun h => hlen ▸ h⟩
        · -- decodeOp returned an operation
          rename_i op d1 heq
          rw [heq] at hp
          obtain ⟨-, hlen, hul, -⟩ := hp
          dsimp only [DecodeOpResult.decoder] at hlen hul
          split
          · exact ⟨le_of_eq hlen.symm, hul, fun h => hlen ▸ h⟩
          · split
            · exact ⟨le_of_eq hlen.symm, hul, fun h => hlen ▸ h⟩
            · rename_i hnp hnover
              have hnover1 : d1.decodedLen + op.Len ≤ d1.unpackLen :=
                Nat.not_lt.mp hnover
              split
              · refine ⟨?_, hul, fun h => ?_⟩ <;>
                  dsimp only [FillResult.decoder] <;> omega
              · split
                · refine ⟨?_, hul, fun h => ?_⟩ <;>
                    dsimp only [FillResult.decoder, setDictEof] <;> omega
                · rename_i dict1 hap hne
                  have ih3 := ih { d1 with decodedLen := d1.decodedLen + op.Len,
                                           dict := dict1 }
                  obtain ⟨ihm, ihu, ihb⟩ := ih3
                  dsimp only at ihm ihu ihb
                  refine ⟨?_, ?_, fun h => ?_⟩
                  · exact le_trans (by omega) ihm
                  · rw [ihu]; exact hul
                  · exact le_trans (ihb (by omega)) (by omega)

/-- **C4** — across any `fill` call the decoded length never decreases
and, when the unpack length is finite and not already exceeded, never
exceeds it; an op that would push the total past the unpack length makes
`fill` fail with the too-long error; an op that makes the total reach the
unpack length exactly makes `fill` set the sticky eof flag. -/
theorem decodedLenMonotoneBounded (d : Decoder) (script : List CodecStep)
    (hu64 : d.unpackLen < 2 ^ 64)
    (hfin : d.unpackLen ≠ noUnpackLen) (hle : d.decodedLen ≤ d.unpackLen) :
    d.decodedLen ≤ (fill d script).decoder.decodedLen ∧
    (fill d script).decoder.decodedLen ≤ (fill d script).decoder.unpackLen ∧
    (∀ step rest op d1, d.dict.eof = false → d.dict.readable < d.dict.b →
      decodeOp d step = .ok op d1 →
      d1.decodedLen + op.Len < 2 ^ 64 →
      d.unpackLen < d1.decodedLen + op.Len →
      fill d (step :: rest) = .err .decodedStreamTooLong (setDictEof d1)) ∧
    (∀ step rest op d1 dict1, d.dict.eof = false →
      d.dict.readable < d.dict.b →
      decodeOp d step = .ok op d1 →
      d1.decodedLen + op.Len = d.unpackLen →
      op.applyDecoderDict d1.dict = some dict1 →
      fill d (step :: rest) =
        .ok (setDictEof { d1 with decodedLen := d1.decodedLen + op.Len,
                                  dict := dict1 }) ∧
      (setDictEof { d1 with decodedLen := d1.decodedLen + op.Len,
                            dict := dict1 }).dict.eof = true) := by
  have hinv := fillLoop_invariant script d
  refine ⟨?_, ?_, ?_, ?_⟩
  · unfold fill
    split
    · exact le_refl _
    · exact hinv.1
  · unfold fill
    split
    · exact hle
    · rw [hinv.2.1]; exact hinv.2.2 hle
  · intro step rest op d1 heof hwant hde hnp hover
    have hp := decodeOp_preserves d step
    rw [hde] at hp
    obtain ⟨-, hlen, hul, -⟩ := hp
    dsimp only [DecodeOpResult.decoder] at hlen hul
    unfold fill fillLoop
    rw [heof, if_neg (by decide), if_neg (Nat.not_le.mpr hwant), hde]
    dsimp only
    rw [if_neg (by omega), if_pos (by omega)]
  · intro step rest op d1 dict1 heof hwant hde hexact hap
    have hp := decodeOp_preserves d step
    rw [hde] at hp
    obtain ⟨-, hlen, hul, -⟩ := hp
    dsimp only [DecodeOpResult.decoder] at hlen hul
    unfold fill fillLoop
    rw [heof, if_neg (by decide), if_neg (Nat.not_le.mpr hwant), hde]
    dsimp only
    rw [if_neg (by omega), if_neg (by omega), hap]
    dsimp only
    rw [if_pos (by omega)]
    exact ⟨rfl, rfl⟩

/-- witness for `decodedLenMonotoneBounded` on a one-literal script. -/
theorem decodedLenMonotoneBounded_witness :
    dec4w.decodedLen ≤
      (fill dec4w [CodecStep.vals chooseLit]).decoder.decodedLen ∧
    (fill dec4w [CodecStep.vals chooseLit]).decoder.decodedLen ≤
      (fill dec4w [CodecStep.vals chooseLit]).decoder.unpackLen :=
  ⟨(decodedLenMonotoneBounded dec4w [CodecStep.vals chooseLit] (by decide)
      (by decide) (by decide)).1,
   (decodedLenMonotoneBounded dec4w [CodecStep.vals chooseLit] (by decide)
      (by decide) (by decide)).2.1⟩

/-! ## C10: a rejected op never reaches the dictionary -/

/-- **C10** — when `fill` rejects an op because the decoded length plus
the op length would exceed the unpack length, the op is not applied: the
dictionary contents and its total after the failure are exactly those
from before the check (only the sticky eof flag changes). -/
theorem rejectedOpLeavesDict (d d1 : Decoder) (step : CodecStep)
    (rest : List CodecStep) (op : Operation)
    (heof : d.dict.eof = false) (hwant : d.dict.readable < d.dict.b)
    (hde : decodeOp d step = .ok op d1)
    (hnp : d1.decodedLen + op.Len < 2 ^ 64)
    (hover : d1.unpackLen < d1.decodedLen + op.Len) :
    fill d (step :: rest) = .err .decodedStreamTooLong (setDictEof d1) ∧
    (setDictEof d1).dict.data = d.dict.data ∧
    (setDictEof d1).dict.total = d.dict.total := by
  have hp := decodeOp_preserves d step
  rw [hde] at hp
  obtain ⟨hdict, hlen, hul, -⟩ := hp
  dsimp only [DecodeOpResult.decoder] at hdict hlen hul
  refine ⟨?_, ?_, ?_⟩
  · unfold fill fillLoop
    rw [heof, if_neg (by decide), if_neg (Nat.not_le.mpr hwant), hde]
    dsimp only
    rw [if_neg (by omega), if_pos (by omega)]
  · rw [show (setDictEof d1).dict.data = d1.dict.data from rfl, hdict]
  · rw [show (setDictEof d1).dict.total = d1.dict.total from rfl, hdict]

/-- witness for `rejectedOpLeavesDict` on a one-literal script. -/
theorem rejectedOpLeavesDict_witness :
    fill dec10w [CodecStep.vals chooseLit] =
      .err .decodedStreamTooLong
        (setDictEof { dec10w with state := updateStateLiteral dec10w.state }) ∧
    (setDictEof { dec10w with
        state := updateStateLiteral dec10w.state }).dict.data =
      dec10w.dict.data ∧
    (setDictEof { dec10w with
        state := updateStateLiteral dec10w.state }).dict.total =
      dec10w.dict.total :=
  rejectedOpLeavesDict dec10w
    { dec10w with state := updateStateLiteral dec10w.state }
    (CodecStep.vals chooseLit) [] (Operation.lit 65) (by decide) (by decide)
    (by decide) (by decide) (by decide)

/-! ## C6: the literal context -/

/-- **C6** — `decodeLiteral` computes the context
`lit_state = ((total & ((1<<LP) − 1)) << LC) | (prev_byte >> (8 − LC))`
with `prev_byte` the dictionary byte at distance 1 (the `uint32`
truncation of `total` in the source is absorbed by the mask), and passes
the dictionary byte at distance `rep[0] + 1` as the match byte; this
holds for every dictionary state and valid (LC, LP) pair. -/
theorem literalContext (d : Decoder) (hlc : d.lc ≤ 8) (hlp : d.lp ≤ 4) :
    decodeLiteralLitState d =
      specLitState d.lp d.lc d.dict.total (d.dict.getByte 1) ∧
    decodeLiteralMatchByte d = d.dict.getByte (d.rep0 + 1) := by
  refine ⟨?_, rfl⟩
  unfold decodeLiteralLitState specLitState
  rw [Nat.one_shiftLeft, Nat.and_pow_two_sub_one_eq_mod,
      Nat.and_pow_two_sub_one_eq_mod,
      Nat.mod_mod_of_dvd _ (pow_dvd_pow 2 (by omega : d.lp ≤ 32))]

/-- witness for `literalContext` at a concrete decoder state. -/
theorem literalContext_witness :
    decodeLiteralLitState dec6w =
      specLitState dec6w.lp dec6w.lc dec6w.dict.total
        (dec6w.dict.getByte 1) ∧
    decodeLiteralMatchByte dec6w = dec6w.dict.getByte (dec6w.rep0 + 1) :=
  literalContext dec6w (by decide) (by decide)

/-! ## C5: the ByteAt bound (code bug in EncoderDict.ByteAt)

encoderdict.go guards the old `encoderDict.ByteAt` with the inclusive
`distance <= e.Len()` but the new `EncoderDict.ByteAt` with the strict
`distance < ed.Len()`.  With exactly one byte in the dictionary the new
implementation returns 0 for distance 1, contradicting its own doc
comment ("A distance of 1 will return the top-most byte in the
dictionary"). -/

/-- **C5** evaluated at the failing input: both dictionaries hold one
byte (7) at distance 1; the old `encoderDict.ByteAt` returns it, while
`EncoderDict.ByteAt` returns 0 because of its strict `distance < Len()`
guard — against the claimed inclusive upper bound. -/
theorem byteAtBoundEval :
    encoderDict.Len ed5low = 1 ∧ encoderDict.ByteAt ed5low 1 = 7 ∧
    EncoderDict.Len ed5cap = 1 ∧ EncoderDict.ByteAt ed5cap 1 = 0 ∧
    ed5cap.buf.data.getD (ed5cap.buf.rear - 1) 0 = 7 ∧ (7 : Nat) ≠ 0 := by
  decide

/-! ## C9: Matches filters distances to the dictionary length -/

/-- **C9** — every distance in the list returned by `Matches` is positive
and at most the dictionary length (`Len()` for the old type, `DictLen()`
for the new one), and with fewer bytes buffered than the matcher word
length (4), `Matches` returns nil. -/
theorem matchesFiltered :
    (∀ e : encoderDict, ∀ dist ∈ e.Matches, 0 < dist ∧ dist ≤ e.Len) ∧
    (∀ e : encoderDict, e.buf.wordLen = 4 →
      e.Buffered < 4 → e.Matches = []) ∧
    (∀ ed : EncoderDict, ∀ dist ∈ ed.Matches,
      0 < dist ∧ dist ≤ (ed.DictLen : Int)) ∧
    (∀ ed : EncoderDict, ed.mWordLen = 4 →
      ed.buf.Buffered < 4 → ed.Matches = []) := by
  refine ⟨?_, ?_, ?_, ?_⟩
  · intro e dist hmem
    unfold encoderDict.Matches at hmem
    split at hmem
    · simp at hmem
    · split at hmem
      · simp only [List.mem_filterMap] at hmem
        obtain ⟨pos, -, hpos⟩ := hmem
        split at hpos
        · rename_i hcond
          injection hpos with h
          exact h ▸ hcond
        · exact Option.noConfusion hpos
      · simp at hmem
  · intro e hw hb
    unfold encoderDict.Matches
    rw [if_pos]
    rw [hw]
    exact_mod_cast hb
  · intro ed dist hmem
    unfold EncoderDict.Matches at hmem
    split at hmem
    · simp at hmem
    · simp only [List.mem_filterMap] at hmem
      obtain ⟨pos, -, hpos⟩ := hmem
      split at hpos
      · rename_i hcond
        injection hpos with h
        exact h ▸ hcond
      · exact Option.noConfusion hpos
  · intro ed hw hb
    unfold EncoderDict.Matches
    rw [if_pos]
    rw [hw]
    exact hb

/-- witness for `matchesFiltered`: the concrete distance 2 returned for
`ed9w` is within (0, Len]; `ed9small` (two bytes buffered) yields nil. -/
theorem matchesFiltered_witness :
    (0 < (2 : Int) ∧ (2 : Int) ≤ encoderDict.Len ed9w) ∧
    EncoderDict.Matches ed9small = [] :=
  ⟨matchesFiltered.1 ed9w 2 (by decide),
   matchesFiltered.2.2.2 ed9small (by decide) (by decide)⟩

/-! ## C7: the error discipline of Decoder.Read -/

/-- outcome classification for `lzmaRead`: `io.EOF` is only ever returned
with a zero byte count, and every other error carries the `"LZMA - "`
wrapping. -/
theorem lzmaRead_err_shape (scripts : List (List CodecStep)) :
    ∀ d pLen n r, lzmaRead d pLen n scripts = some r →
      (r.e = some Err.ioEOF → r.cnt = 0) ∧
      (∀ e0, r.e = some e0 → e0 = Err.ioEOF ∨ e0.isWrapped = true) := by
  induction scripts with
  | nil =>
      intro d pLen n r h
      unfold lzmaRead at h
      dsimp only at h
      split at h
      · -- the dictionary read reported io.EOF
        split at h
        · injection h with h1
          subst h1
          exact ⟨fun _ => rfl, fun e0 he0 => by
            injection he0 with h2
            exact Or.inl h2.symm⟩
        · injection h with h1
          subst h1
          exact ⟨fun hh => Option.noConfusion hh,
                 fun e0 he0 => Option.noConfusion he0⟩
      · -- the dictionary read reported another error: wrapped
        injection h with h1
        subst h1
        refine ⟨fun hh => ?_, fun e0 he0 => ?_⟩
        · injection hh with h2
          exact Err.noConfusion h2
        · injection he0 with h2
          subst h2
          exact Or.inr rfl
      · -- no error from the dictionary read
        split at h
        · injection h with h1
          subst h1
          exact ⟨fun hh => Option.noConfusion hh,
                 fun e0 he0 => Option.noConfusion he0⟩
        · exact Option.noConfusion h
  | cons s rest ih =>
      intro d pLen n r h
      unfold lzmaRead at h
      dsimp only at h
      split at h
      · split at h
        · injection h with h1
          subst h1
          exact ⟨fun _ => rfl, fun e0 he0 => by
            injection he0 with h2
            exact Or.inl h2.symm⟩
        · injection h with h1
          subst h1
          exact ⟨fun hh => Option.noConfusion hh,
                 fun e0 he0 => Option.noConfusion he0⟩
      · injection h with h1
        subst h1
        refine ⟨fun hh => ?_, fun e0 he0 => ?_⟩
        · injection hh with h2
          exact Err.noConfusion h2
        · injection he0 with h2
          subst h2
          exact Or.inr rfl
      · split at h
        · injection h with h1
          subst h1
          exact ⟨fun hh => Option.noConfusion hh,
                 fun e0 he0 => Option.noConfusion he0⟩
        · split at h
          · exact ih _ _ _ _ h
          · injection h with h1
            subst h1
            refine ⟨fun hh => ?_, fun e0 he0 => ?_⟩
            · injection hh with h2
              exact Err.noConfusion h2
            · injection he0 with h2
              subst h2
              exact Or.inr rfl
          · exact Option.noConfusion h
          · exact Option.noConfusion h

/-- **C7** — `Decoder.Read` returns `io.EOF` only on a call that delivers
zero bytes; at the stream end a call that has already copied at least one
byte returns that count with no error; and every other error reaching the
caller carries the `"LZMA - "` wrapping. -/
theorem readErrorDiscipline (d : Decoder) (pLen n : Nat)
    (scripts : List (List CodecStep)) (r : ReadResult)
    (h : lzmaRead d pLen n scripts = some r) :
    (r.e = some Err.ioEOF → r.cnt = 0) ∧
    (∀ e0, r.e = some e0 → e0 = Err.ioEOF ∨ e0.isWrapped = true) ∧
    (∀ d1 m, 1 ≤ m → d1.dict.readable = 0 → d1.dict.eof = true →
      lzmaRead d1 pLen m scripts = some ⟨m, none, d1⟩) := by
  refine ⟨(lzmaRead_err_shape scripts d pLen n r h).1,
          (lzmaRead_err_shape scripts d pLen n r h).2, ?_⟩
  intro d1 m hm hrd heof
  have hk : d1.dict.dictRead (pLen - m) = ⟨0, some Err.ioEOF, d1.dict⟩ := by
    unfold DecoderDict.dictRead
    rw [hrd]
    simp [heof]
  unfold lzmaRead
  rw [hk]
  dsimp only
  rw [if_neg (by omega)]
  rfl

/-- witness for `readErrorDiscipline`: at the stream end a call with one
byte already copied returns that byte count and no error. -/
theorem readErrorDiscipline_witness :
    lzmaRead dec7w 4 1 [] = some ⟨1, none, dec7w⟩ :=
  (readErrorDiscipline dec7w 4 0 [] ⟨0, some Err.ioEOF, dec7w⟩
      (by decide)).2.2 dec7w 1 (by decide) (by decide) (by decide)

/-! ## C8: fatal errors are not replayed (corrected)

The decoder stores no error.  The source sets the dictionary's sticky
eof flag when it rejects an overlong stream, so the call returns the
too-long error once and every later call drains the dictionary and then
returns `io.EOF` — not the same error. -/

/-- counterexample to C8 as stated: the first `Read` fails with the
wrapped too-long error, and the next `Read` returns `io.EOF`, which is a
different error. -/
theorem stickyErrorClaim_counterexample :
    lzmaRead dec8 4 0 [[CodecStep.vals chooseLit]] =
      some ⟨0, some (Err.lzma Err.decodedStreamTooLong), setDictEof dec8⟩ ∧
    lzmaRead (setDictEof dec8) 4 0 [] =
      some ⟨0, some Err.ioEOF, setDictEof dec8⟩ ∧
    some (Err.lzma Err.decodedStreamTooLong) ≠ some Err.ioEOF := by decide

/-- errors of the `fill` loop that set the sticky eof flag: the too-long
rejection always leaves `eof = true` behind. -/
theorem fillLoop_tooLong_eof (script : List CodecStep) :
    ∀ d d1, fillLoop d script = .err .decodedStreamTooLong d1 →
      d1.dict.eof = true := by
  induction script with
  | nil =>
      intro d d1 h
      unfold fillLoop at h
      split at h <;> exact FillResult.noConfusion h
  | cons step rest ih =>
      intro d d1 h
      unfold fillLoop at h
      split at h
      · exact FillResult.noConfusion h
      · split at h
        · split at h
          · injection h with h1 h2
            exact Err.noConfusion h1
          · exact FillResult.noConfusion h
        · injection h with h1 h2
          exact Err.noConfusion h1
        · rename_i e d0 hne1 hne2 heq
          injection h with h3 h4
          subst h3
          rcases decodeOp_err_cases d step _ d0 heq with h5 | h5 | h5 | h5 <;>
            exact Err.noConfusion h5
        · dsimp only at h
          repeat' split at h
          all_goals
            first
            | exact FillResult.noConfusion h
            | exact ih _ _ h
            | (injection h with h1 h2
               first
               | exact Err.noConfusion h1
               | (subst h2; rfl))

/-- **C8 (amended)** — after `fill` rejects an overlong stream with the
too-long error, the decoder's dictionary has its sticky eof flag set, and
once the dictionary is drained every subsequent `Read` call returns zero
bytes with `io.EOF` rather than the original error; no error is stored or
replayed. -/
theorem errorNotSticky (d d1 : Decoder) (s : List CodecStep)
    (h : fill d s = .err .decodedStreamTooLong d1) :
    d1.dict.eof = true ∧
    (∀ pLen scripts, d1.dict.readable = 0 →
      lzmaRead d1 pLen 0 scripts = some ⟨0, some Err.ioEOF, d1⟩) := by
  have heof : d1.dict.eof = true := by
    unfold fill at h
    split at h
    · exact FillResult.noConfusion h
    · exact fillLoop_tooLong_eof s d d1 h
  refine ⟨heof, ?_⟩
  intro pLen scripts hrd
  have hk : d1.dict.dictRead (pLen - 0) = ⟨0, some Err.ioEOF, d1.dict⟩ := by
    unfold DecoderDict.dictRead
    rw [hrd]
    simp [heof]
  unfold lzmaRead
  rw [hk]
  rfl

/-- witness for `errorNotSticky` at the concrete overlong stream of the
counterexample. -/
theorem errorNotSticky_witness :
    (setDictEof dec8).dict.eof = true ∧
    lzmaRead (setDictEof dec8) 4 0 [] =
      some ⟨0, some Err.ioEOF, setDictEof dec8⟩ :=
  ⟨(errorNotSticky dec8 (setDictEof dec8) [CodecStep.vals chooseLit]
      (by decide)).1,
   (errorNotSticky dec8 (setDictEof dec8) [CodecStep.vals chooseLit]
      (by decide)).2 4 [] (by decide)⟩

end XZ

